import Mathlib

/-!
Verification of the feed-reader Feed List Store (`feedlist/feed_list.go`).

The store keeps user-added feeds as one JSON-serialized value under a fixed
key in a fixed bolt bucket, and merges them with a hard-coded default
catalog.  We embed the store shallowly: the bolt database is a record
holding whether the bucket exists and the optional raw value stored under
the key; the external `encoding/json` codec is modelled by an inductive raw
value that is either zero-length, a valid encoding of a feed list, or
garbage bytes that fail to unmarshal.
-/

namespace FeedList

/-- `Feed` — the stored version of a feed record (`feed_list.go`, struct
`Feed`): six string fields. -/
structure Feed where
  ID : String
  Title : String
  Description : String
  URL : String
  ImageURL : String
  Category : String
deriving DecidableEq, Repr

/-- `defaultFeedsList` — the hard-coded demo catalog (`feed_list.go`,
lines 21-52): four feeds with pre-assigned identifiers.  Fields not set in
the Go literal are the zero value `""`. -/
def defaultFeedsList : List Feed :=
  [ { ID := "b1031651-411c-40bb-b269-d247794dfd59"
      Title := "BBC News - UK"
      Description := "BBC News - UK"
      URL := "http://feeds.bbci.co.uk/news/uk/rss.xml"
      ImageURL := "https://news.bbcimg.co.uk/nol/shared/img/bbc_news_120x60.gif"
      Category := "" }
  , { ID := "c2970c84-37c8-4ec1-8861-4b5a91ebff0d"
      Title := "BBC News - Technology"
      Description := "BBC News - Technology"
      URL := "http://feeds.bbci.co.uk/news/technology/rss.xml"
      ImageURL := "https://news.bbcimg.co.uk/nol/shared/img/bbc_news_120x60.gif"
      Category := "" }
  , { ID := "28059396-5113-46ed-b76b-6d482a3bbcf3"
      Title := "UK News - The latest headlines from the UK | Sky News"
      Description := "Expert comment and analysis on the latest UK news, with headlines from England, Scotland, Northern Ireland and Wales."
      URL := "http://feeds.skynews.com/feeds/rss/uk.xml"
      ImageURL := "http://feeds.skynews.com/images/web/logo/skynews_rss.png"
      Category := "Sky News" }
  , { ID := "a2370e4f-0e7f-4844-83cb-b54c02b0bf1f"
      Title := "Tech News - Latest Technology and Gadget News | Sky News"
      Description := "Sky News technology provides you with all the latest tech and gadget news, game reviews, Internet and web news across the globe. Visit us today."
      URL := "http://feeds.skynews.com/feeds/rss/technology.xml"
      ImageURL := "http://feeds.skynews.com/images/web/logo/skynews_rss.png"
      Category := "Sky News" } ]

/-- The error values of `feed_list.go` (lines 53-65).  `ErrorInitializingDB`
is included for completeness of the taxonomy although `init` is not
modelled further. -/
inductive Err where
  | errorInitializingDB
  | errorUnconfiguredBucket
  | errorStoreFeedListCorrupted
  | errorFeedNotFound
deriving DecidableEq, Repr

/-- Model of the raw byte string persisted under the bucket key, abstracting
the external `encoding/json` codec: a raw value is either of zero length,
the (injective, invertible) JSON encoding of a list of feeds as produced by
`json.Marshal`, or non-empty bytes on which `json.Unmarshal` into `[]Feed`
fails. -/
inductive RawVal where
  | empty
  | encoded (feeds : List Feed)
  | garbage (n : Nat)
deriving DecidableEq, Repr

/-- Byte length of a raw value, abstracted to what the code observes: the
store only ever tests `len(rawFeedList) == 0`, and `json.Marshal` of a feed
list always yields at least the two bytes `[]`, so encoded and garbage
values are given a positive length. -/
def RawVal.len : RawVal → Nat
  | .empty => 0
  | .encoded _ => 1
  | .garbage n => n + 1

/-- Model of `json.Marshal` on `[]Feed`: always succeeds (every field is a
string) and produces the canonical encoding. -/
def jsonMarshal (feeds : List Feed) : RawVal :=
  .encoded feeds

/-- Model of `json.Unmarshal` of raw bytes into `[]Feed`: inverts
`jsonMarshal` and fails on anything else (in particular on zero-length
input, which is not valid JSON). -/
def jsonUnmarshal : RawVal → Option (List Feed)
  | .encoded feeds => some feeds
  | .empty => none
  | .garbage _ => none

/-- The persisted state the store observes through bolt: whether the
`feedlist` bucket exists, and the value stored under the key `all`
(`none` when no value is stored; bolt's `Get` then returns `nil`, of
length 0). -/
structure DB where
  bucketExists : Bool
  value : Option RawVal
deriving DecidableEq, Repr

/-- What `bucket.Get([]byte(allFeedsBucketKey))` hands back, as tested by
`len(rawFeedList) == 0`: an absent value behaves as length 0. -/
def DB.rawLen (db : DB) : Nat :=
  match db.value with
  | none => 0
  | some v => v.len

/-- `listStored` (`feed_list.go`, lines 116-144): read the raw value in a
read-only transaction, failing with `ErrorUnconfiguredBucket` when the
bucket is missing; return the empty list when the raw value has length 0;
otherwise unmarshal, failing with `ErrorStoreFeedListCorrupted` when the
bytes do not deserialize. -/
def listStored (db : DB) : Except Err (List Feed) :=
  if db.bucketExists = false then
    .error .errorUnconfiguredBucket
  else if db.rawLen = 0 then
    .ok []
  else
    match db.value with
    | none => .ok []
    | some v =>
      match jsonUnmarshal v with
      | none => .error .errorStoreFeedListCorrupted
      | some feedList => .ok feedList

/-- `ListAll` (`feed_list.go`, lines 103-114): the default catalog followed
by the stored list, propagating any `listStored` error.  (The Go source
returns `defaultFeedsList` alone when the stored list is `nil`, which is
the same list as `defaultFeedsList ++ []`.) -/
def ListAll (db : DB) : Except Err (List Feed) :=
  match listStored db with
  | .error err => .error err
  | .ok storedFeedList => .ok (defaultFeedsList ++ storedFeedList)

/-- `Add` (`feed_list.go`, lines 154-197).  The fresh identifier produced by
`uuid.NewString()` is passed in as the parameter `freshID` (the generator
is external nondeterminism).  The candidate's `ID` is overwritten first;
the stored list is read (propagating errors); the stored feeds and then the
default feeds are scanned for an equal `URL`, returning the first existing
feed's id without writing; otherwise the stored list plus the candidate is
marshalled and written back in a write transaction, which fails with
`ErrorUnconfiguredBucket` (rolling back, leaving the state unchanged) when
the bucket is missing.  Returns the resulting store state alongside the
result. -/
def Add (db : DB) (feed : Feed) (freshID : String) : Except Err String × DB :=
  let feed := { feed with ID := freshID }
  match listStored db with
  | .error err => (.error err, db)
  | .ok existingFeeds =>
    match existingFeeds.find? (fun existingFeed => existingFeed.URL == feed.URL) with
    | some existingFeed => (.ok existingFeed.ID, db)
    | none =>
      match defaultFeedsList.find? (fun existingFeed => existingFeed.URL == feed.URL) with
      | some existingFeed => (.ok existingFeed.ID, db)
      | none =>
        let rawFeed := jsonMarshal (existingFeeds ++ [feed])
        if db.bucketExists = false then
          (.error .errorUnconfiguredBucket, db)
        else
          (.ok feed.ID, { db with value := some rawFeed })

/-- `GetByID` (`feed_list.go`, lines 200-214): linear scan of `ListAll` for
the first feed with a matching `ID`, failing with `ErrorFeedNotFound` on no
match and propagating `ListAll` errors. -/
def GetByID (db : DB) (ID : String) : Except Err Feed :=
  match ListAll db with
  | .error err => (.error err : Except Err Feed)
  | .ok feeds =>
    match feeds.find? (fun feed => feed.ID == ID) with
    | some feed => .ok feed
    | none => .error .errorFeedNotFound

/-- A sequence of single-threaded `Add` calls: each element carries the
candidate feed and the fresh identifier its call draws from the uuid
generator. -/
def runAdds (db : DB) : List (Feed × String) → DB
  | [] => db
  | (feed, freshID) :: rest => runAdds (Add db feed freshID).2 rest

/-- A store in the Ready state whose stored list is still absent: the state
right after `init` on a fresh database. -/
def emptyStore : DB :=
  { bucketExists := true, value := none }

/-- A sample candidate feed, used to instantiate the theorems on concrete
inputs (its URL does not occur in the default catalog). -/
def exampleFeed : Feed :=
  { ID := "caller-1"
    Title := "Example"
    Description := "An example feed"
    URL := "http://example.com/rss"
    ImageURL := "http://example.com/logo.png"
    Category := "Examples" }

/-- A sample candidate feed whose URL collides with the first default
catalog entry while every display field differs from it. -/
def bbcDupFeed : Feed :=
  { ID := "caller-2"
    Title := "Different title"
    Description := "Different description"
    URL := "http://feeds.bbci.co.uk/news/uk/rss.xml"
    ImageURL := ""
    Category := "" }

/-- Decidable equality of results, so that the operations can be evaluated
on concrete inputs inside proofs. -/
instance exceptDecEq {ε α : Type} [DecidableEq ε] [DecidableEq α] :
    DecidableEq (Except ε α) := fun x y =>
  match x, y with
  | .ok a, .ok b =>
    if h : a = b then .isTrue (by rw [h])
    else .isFalse (fun hc => h (Except.ok.inj hc))
  | .ok _, .error _ => .isFalse (fun hc => Except.noConfusion hc)
  | .error _, .ok _ => .isFalse (fun hc => Except.noConfusion hc)
  | .error e, .error e' =>
    if h : e = e' then .isTrue (by rw [h])
    else .isFalse (fun hc => h (Except.error.inj hc))

end FeedList

namespace FeedList

/-! ### Basic lemmas about `listStored` and `ListAll` -/

theorem listStored_bucket_false {db : DB} (h : db.bucketExists = false) :
    listStored db = .error .errorUnconfiguredBucket := by
  simp [listStored, h]

theorem listStored_value_none {db : DB} (hb : db.bucketExists = true)
    (hv : db.value = none) : listStored db = .ok [] := by
  simp [listStored, hb, DB.rawLen, hv]

theorem listStored_corrupt {db : DB} {v : RawVal} (hb : db.bucketExists = true)
    (hv : db.value = some v) (hlen : v.len ≠ 0) (hbad : jsonUnmarshal v = none) :
    listStored db = .error .errorStoreFeedListCorrupted := by
  simp [listStored, hb, DB.rawLen, hv, hlen, hbad]

theorem listStored_bucket_true {db : DB} {l : List Feed}
    (h : listStored db = .ok l) : db.bucketExists = true := by
  cases hb : db.bucketExists
  · rw [listStored_bucket_false hb] at h
    exact Except.noConfusion h
  · rfl

theorem listStored_marshal {db : DB} (hb : db.bucketExists = true) (l : List Feed) :
    listStored { db with value := some (jsonMarshal l) } = .ok l := by
  simp [listStored, hb, DB.rawLen, jsonMarshal, jsonUnmarshal, RawVal.len]

theorem listStored_error_kind {db : DB} {e : Err} (h : listStored db = .error e) :
    e = .errorUnconfiguredBucket ∨ e = .errorStoreFeedListCorrupted := by
  obtain ⟨b, v⟩ := db
  cases b
  · left
    simp [listStored] at h
    exact h.symm
  · cases v with
    | none => simp [listStored, DB.rawLen] at h
    | some w =>
      cases w with
      | empty => simp [listStored, DB.rawLen, RawVal.len] at h
      | encoded l => simp [listStored, DB.rawLen, RawVal.len, jsonUnmarshal] at h
      | garbage n =>
        right
        simp [listStored, DB.rawLen, RawVal.len, jsonUnmarshal] at h
        exact h.symm

theorem listAll_ok {db : DB} {stored : List Feed} (h : listStored db = .ok stored) :
    ListAll db = .ok (defaultFeedsList ++ stored) := by
  simp [ListAll, h]

theorem listAll_error {db : DB} {e : Err} (h : listStored db = .error e) :
    ListAll db = .error e := by
  simp [ListAll, h]

theorem listAll_ok_inv {db : DB} {l : List Feed} (h : ListAll db = .ok l) :
    ∃ stored, listStored db = .ok stored ∧ l = defaultFeedsList ++ stored := by
  simp only [ListAll] at h
  rcases hs : listStored db with e | stored
  · rw [hs] at h
    exact Except.noConfusion h
  · rw [hs] at h
    injection h with h
    exact ⟨stored, rfl, h.symm⟩

theorem listAll_error_inv {db : DB} {e : Err} (h : ListAll db = .error e) :
    listStored db = .error e := by
  simp only [ListAll] at h
  rcases hs : listStored db with e' | stored
  · rw [hs] at h
    injection h with h
    rw [h]
  · rw [hs] at h
    exact Except.noConfusion h

/-! ### Lemmas about the branches of `Add` -/

theorem add_listStored_error {db : DB} {e : Err} (f : Feed) (fresh : String)
    (h : listStored db = .error e) : Add db f fresh = (.error e, db) := by
  simp [Add, h]

theorem add_dup_stored {db : DB} {f g : Feed} {l : List Feed} (fresh : String)
    (hls : listStored db = .ok l)
    (hfind : l.find? (fun x => x.URL == f.URL) = some g) :
    Add db f fresh = (.ok g.ID, db) := by
  simp [Add, hls, hfind]

theorem add_dup_default {db : DB} {f g : Feed} {l : List Feed} (fresh : String)
    (hls : listStored db = .ok l)
    (h1 : l.find? (fun x => x.URL == f.URL) = none)
    (h2 : defaultFeedsList.find? (fun x => x.URL == f.URL) = some g) :
    Add db f fresh = (.ok g.ID, db) := by
  simp [Add, hls, h1, h2]

theorem add_new_url {db : DB} {f : Feed} {l : List Feed} (fresh : String)
    (hls : listStored db = .ok l)
    (h1 : l.find? (fun x => x.URL == f.URL) = none)
    (h2 : defaultFeedsList.find? (fun x => x.URL == f.URL) = none) :
    Add db f fresh =
      (.ok fresh,
        { db with value := some (jsonMarshal (l ++ [{ f with ID := fresh }])) }) := by
  have hb := listStored_bucket_true hls
  simp [Add, hls, h1, h2, hb]

theorem find?_url_eq_none {l : List Feed} {u : String}
    (h : ∀ g ∈ l, g.URL ≠ u) : l.find? (fun x => x.URL == u) = none := by
  rw [List.find?_eq_none]
  intro x hx
  simp [h x hx]

theorem find?_id_eq_none {l : List Feed} {i : String}
    (h : ∀ g ∈ l, g.ID ≠ i) : l.find? (fun x => x.ID == i) = none := by
  rw [List.find?_eq_none]
  intro x hx
  simp [h x hx]

/-! ### The URL-uniqueness invariant -/

/-- The combined catalog built from the stored list `stored` has pairwise
distinct URLs. -/
def goodURLs (stored : List Feed) : Prop :=
  ((defaultFeedsList ++ stored).map Feed.URL).Nodup

/-- Invariant maintained by `Add`: the stored list deserializes and the
combined catalog has pairwise distinct URLs. -/
def inv (db : DB) : Prop :=
  ∃ stored, listStored db = .ok stored ∧ goodURLs stored

theorem goodURLs_nil : goodURLs [] := by
  unfold goodURLs
  decide

theorem goodURLs_append {stored : List Feed} {f : Feed} (h : goodURLs stored)
    (hnew : ∀ g ∈ defaultFeedsList ++ stored, g.URL ≠ f.URL) :
    goodURLs (stored ++ [f]) := by
  unfold goodURLs at h ⊢
  rw [← List.append_assoc, List.map_append]
  simp only [List.map_cons, List.map_nil]
  refine h.append (List.nodup_singleton _) ?_
  rw [List.disjoint_singleton]
  intro hmem
  obtain ⟨g, hg, hgu⟩ := List.mem_map.mp hmem
  exact hnew g hg hgu

theorem inv_add {db : DB} (h : inv db) (f : Feed) (fresh : String) :
    inv (Add db f fresh).2 := by
  obtain ⟨l, hls, hnd⟩ := h
  rcases h1 : l.find? (fun x => x.URL == f.URL) with _ | g
  · rcases h2 : defaultFeedsList.find? (fun x => x.URL == f.URL) with _ | g
    · rw [add_new_url fresh hls h1 h2]
      refine ⟨l ++ [{ f with ID := fresh }],
        listStored_marshal (listStored_bucket_true hls) _, ?_⟩
      apply goodURLs_append hnd
      intro g hg
      rcases List.mem_append.mp hg with hgd | hgs
      · have := List.find?_eq_none.mp h2 g hgd
        simpa using this
      · have := List.find?_eq_none.mp h1 g hgs
        simpa using this
    · rw [add_dup_default fresh hls h1 h2]
      exact ⟨l, hls, hnd⟩
  · rw [add_dup_stored fresh hls h1]
    exact ⟨l, hls, hnd⟩

theorem inv_runAdds {db : DB} (h : inv db) (adds : List (Feed × String)) :
    inv (runAdds db adds) := by
  induction adds generalizing db with
  | nil => exact h
  | cons p rest ih =>
    obtain ⟨f, s⟩ := p
    exact ih (inv_add h f s)

/-! ### Claim theorems -/

/-- C1: starting from a store whose stored list is empty (the default
catalog's URLs are pairwise distinct, established by computation in
`goodURLs_nil`), after any sequence of single-threaded `Add` calls,
whenever `ListAll` succeeds no two feeds in the returned sequence share a
URL. -/
theorem add_sequence_url_uniqueness (db : DB) (adds : List (Feed × String))
    (l : List Feed) (hempty : listStored db = .ok [])
    (hall : ListAll (runAdds db adds) = .ok l) :
    (l.map Feed.URL).Nodup := by
  have hinv : inv db := ⟨[], hempty, goodURLs_nil⟩
  obtain ⟨stored, hst, hnd⟩ := inv_runAdds hinv adds
  obtain ⟨stored', hst', rfl⟩ := listAll_ok_inv hall
  rw [hst] at hst'
  injection hst' with hst'
  unfold goodURLs at hnd
  rw [← hst']
  exact hnd

theorem add_sequence_url_uniqueness_witness :
    ((defaultFeedsList ++ [{ exampleFeed with ID := "fresh-1" }]).map Feed.URL).Nodup :=
  add_sequence_url_uniqueness emptyStore [(exampleFeed, "fresh-1")] _ rfl rfl

/-- C3: whenever `ListAll` succeeds it returns exactly the default catalog
entries, in their fixed order, followed by the stored list entries, in
insertion order, with no other entries; and any error from `listStored` is
propagated unchanged. -/
theorem listAll_merge_order (db : DB) :
    (∀ stored, listStored db = .ok stored →
      ListAll db = .ok (defaultFeedsList ++ stored)) ∧
    (∀ l, ListAll db = .ok l →
      ∃ stored, listStored db = .ok stored ∧ l = defaultFeedsList ++ stored) ∧
    (∀ e, listStored db = .error e → ListAll db = .error e) :=
  ⟨fun _ h => listAll_ok h, fun _ h => listAll_ok_inv h, fun _ h => listAll_error h⟩

theorem listAll_merge_order_witness :
    ListAll { bucketExists := true, value := some (jsonMarshal [exampleFeed]) } =
      .ok (defaultFeedsList ++ [exampleFeed]) :=
  (listAll_merge_order _).1 _ rfl

/-- C4 counterexample: a store state holding a zero-length value — a stored
value that does not deserialize into a feed list — on which `listStored`
returns the empty list instead of failing with the corruption error. -/
theorem listStored_zero_length_not_corrupted :
    jsonUnmarshal RawVal.empty = none ∧
    listStored { bucketExists := true, value := some RawVal.empty } = .ok [] ∧
    (Except.ok ([] : List Feed) ≠
      (.error .errorStoreFeedListCorrupted : Except Err (List Feed))) :=
  ⟨rfl, rfl, fun h => Except.noConfusion h⟩

/-- C4 (amended): `listStored` fails with the unconfigured-bucket error when
the bucket is absent, returns the empty list when the bucket exists but no
value is stored under the key, and fails with the corruption error when a
stored value of non-zero length fails to deserialize into a feed list. -/
theorem listStored_error_taxonomy (db : DB) :
    (db.bucketExists = false → listStored db = .error .errorUnconfiguredBucket) ∧
    (db.bucketExists = true → db.value = none → listStored db = .ok []) ∧
    (∀ v : RawVal, db.bucketExists = true → db.value = some v → v.len ≠ 0 →
      jsonUnmarshal v = none →
      listStored db = .error .errorStoreFeedListCorrupted) :=
  ⟨fun h => listStored_bucket_false h,
   fun hb hv => listStored_value_none hb hv,
   fun _ hb hv hlen hbad => listStored_corrupt hb hv hlen hbad⟩

theorem listStored_error_taxonomy_witness :
    listStored { bucketExists := false, value := none } =
      .error .errorUnconfiguredBucket ∧
    listStored { bucketExists := true, value := none } = .ok [] ∧
    listStored { bucketExists := true, value := some (RawVal.garbage 0) } =
      .error .errorStoreFeedListCorrupted :=
  ⟨(listStored_error_taxonomy _).1 rfl,
   (listStored_error_taxonomy _).2.1 rfl rfl,
   (listStored_error_taxonomy _).2.2 (RawVal.garbage 0) rfl rfl (by decide) rfl⟩

/-- C7 counterexample: a store state whose persisted bytes are replaced by a
zero-length value — invalid data that does not deserialize — on which
`ListAll` silently returns the default catalog instead of failing with the
corruption error. -/
theorem corrupted_empty_value_listAll_ok :
    jsonUnmarshal RawVal.empty = none ∧
    ListAll { bucketExists := true, value := some RawVal.empty } =
      .ok defaultFeedsList ∧
    ((.ok defaultFeedsList : Except Err (List Feed)) ≠
      .error .errorStoreFeedListCorrupted) :=
  ⟨rfl, rfl, fun h => Except.noConfusion h⟩

/-- C7 (amended): for every store state whose persisted value is present,
of non-zero length, and fails to deserialize, `ListAll`, `Add` and
`GetByID` all fail with the corruption error (and `Add` leaves the state
unchanged) rather than returning a partial or empty result. -/
theorem corruption_isolation (db : DB) (v : RawVal)
    (hb : db.bucketExists = true) (hv : db.value = some v)
    (hlen : v.len ≠ 0) (hbad : jsonUnmarshal v = none) :
    ListAll db = .error .errorStoreFeedListCorrupted ∧
    (∀ f fresh, Add db f fresh = (.error .errorStoreFeedListCorrupted, db)) ∧
    (∀ i, GetByID db i = .error .errorStoreFeedListCorrupted) := by
  have h := listStored_corrupt hb hv hlen hbad
  refine ⟨listAll_error h, fun f fresh => add_listStored_error f fresh h, fun i => ?_⟩
  simp [GetByID, listAll_error h]

theorem corruption_isolation_witness :
    ListAll { bucketExists := true, value := some (RawVal.garbage 1) } =
      .error .errorStoreFeedListCorrupted ∧
    Add { bucketExists := true, value := some (RawVal.garbage 1) } exampleFeed "fresh-9" =
      (.error .errorStoreFeedListCorrupted,
        { bucketExists := true, value := some (RawVal.garbage 1) }) ∧
    GetByID { bucketExists := true, value := some (RawVal.garbage 1) } "any-id" =
      .error .errorStoreFeedListCorrupted := by
  have h := corruption_isolation { bucketExists := true, value := some (RawVal.garbage 1) }
    (RawVal.garbage 1) rfl rfl (by decide) rfl
  exact ⟨h.1, h.2.1 _ _, h.2.2 _⟩

/-- C10: when the bucket exists and the persisted value is present but has
zero length, `listStored` returns the empty list with no error, exactly as
for an absent value, and `ListAll` returns just the default catalog — even
though a zero-length value does not deserialize as a feed list. -/
theorem zero_length_value_like_absent (db : DB) (v : RawVal)
    (hb : db.bucketExists = true) (hv : db.value = some v) (hlen : v.len = 0) :
    jsonUnmarshal v = none ∧
    listStored db = .ok [] ∧
    listStored db = listStored { db with value := none } ∧
    ListAll db = .ok defaultFeedsList := by
  have hveq : v = .empty := by
    cases v with
    | empty => rfl
    | encoded l => simp [RawVal.len] at hlen
    | garbage n => simp [RawVal.len] at hlen
  subst hveq
  have h1 : listStored db = .ok [] := by
    simp [listStored, hb, DB.rawLen, hv, RawVal.len]
  have h2 : listStored { db with value := none } = .ok [] :=
    listStored_value_none hb rfl
  refine ⟨rfl, h1, ?_, ?_⟩
  · rw [h1, h2]
  · rw [listAll_ok h1, List.append_nil]

theorem zero_length_value_like_absent_witness :
    jsonUnmarshal RawVal.empty = none ∧
    listStored { bucketExists := true, value := some RawVal.empty } = .ok [] ∧
    listStored { bucketExists := true, value := some RawVal.empty } =
      listStored { bucketExists := true, value := none } ∧
    ListAll { bucketExists := true, value := some RawVal.empty } =
      .ok defaultFeedsList :=
  zero_length_value_like_absent _ RawVal.empty rfl rfl rfl

/-- C2: for every store state on which a first `Add` of a candidate
succeeds, a second `Add` of the same candidate (with a possibly different
fresh identifier) returns the same id as the first call, performs no write
— the store state is unchanged — and across the two calls the stored list
grows by at most one entry. -/
theorem add_idempotent (db : DB) (f : Feed) (id1 id2 r1 : String)
    (h1 : (Add db f id1).1 = .ok r1) :
    (Add (Add db f id1).2 f id2).1 = .ok r1 ∧
    (Add (Add db f id1).2 f id2).2 = (Add db f id1).2 ∧
    ∃ l0 l1, listStored db = .ok l0 ∧ listStored (Add db f id1).2 = .ok l1 ∧
      l1.length ≤ l0.length + 1 := by
  rcases hls : listStored db with e | l0
  · rw [add_listStored_error f id1 hls] at h1
    exact Except.noConfusion h1
  · rcases hf : l0.find? (fun x => x.URL == f.URL) with _ | g
    · rcases hd : defaultFeedsList.find? (fun x => x.URL == f.URL) with _ | g
      · have hb := listStored_bucket_true hls
        have hadd := add_new_url id1 hls hf hd
        simp only [hadd] at h1
        injection h1 with h1
        have hls1 : listStored (Add db f id1).2 = .ok (l0 ++ [{ f with ID := id1 }]) := by
          rw [hadd]
          exact listStored_marshal hb _
        have hfind1 : (l0 ++ [{ f with ID := id1 }]).find?
            (fun x => x.URL == f.URL) = some { f with ID := id1 } := by
          rw [List.find?_append, hf]
          simp
        refine ⟨?_, ?_, l0, l0 ++ [{ f with ID := id1 }], rfl, hls1, by simp⟩
        · simpa [add_dup_stored id2 hls1 hfind1] using h1
        · simp [add_dup_stored id2 hls1 hfind1]
      · have hadd := add_dup_default id1 hls hf hd
        simp only [hadd] at h1
        injection h1 with h1
        refine ⟨?_, ?_, l0, l0, rfl, ?_, by simp⟩
        · simpa [hadd, add_dup_default id2 hls hf hd] using h1
        · simp [hadd, add_dup_default id2 hls hf hd]
        · simp [hadd, hls]
    · have hadd := add_dup_stored id1 hls hf
      simp only [hadd] at h1
      injection h1 with h1
      refine ⟨?_, ?_, l0, l0, rfl, ?_, by simp⟩
      · simpa [hadd, add_dup_stored id2 hls hf] using h1
      · simp [hadd, add_dup_stored id2 hls hf]
      · simp [hadd, hls]

theorem add_idempotent_witness :
    (Add (Add emptyStore exampleFeed "fresh-1").2 exampleFeed "fresh-2").1 =
      .ok "fresh-1" ∧
    (Add (Add emptyStore exampleFeed "fresh-1").2 exampleFeed "fresh-2").2 =
      (Add emptyStore exampleFeed "fresh-1").2 :=
  ⟨(add_idempotent emptyStore exampleFeed "fresh-1" "fresh-2" "fresh-1" rfl).1,
   (add_idempotent emptyStore exampleFeed "fresh-1" "fresh-2" "fresh-1" rfl).2.1⟩

/-- C5: `GetByID` returns the first feed of the `ListAll` sequence whose
`ID` field matches (defaults scanned before stored feeds), fails with the
not-found error exactly when `ListAll` succeeds and contains no match, and
propagates any `ListAll` error. -/
theorem getByID_spec (db : DB) (i : String) :
    (∀ l g, ListAll db = .ok l → l.find? (fun x => x.ID == i) = some g →
      GetByID db i = .ok g) ∧
    (∀ e, ListAll db = .error e → GetByID db i = .error e) ∧
    (GetByID db i = .error .errorFeedNotFound ↔
      ∃ l, ListAll db = .ok l ∧ ∀ g ∈ l, g.ID ≠ i) := by
  refine ⟨fun l g hl hf => by simp [GetByID, hl, hf],
          fun e he => by simp [GetByID, he], ?_, ?_⟩
  · intro h
    rcases hl : ListAll db with e | l
    · rw [show GetByID db i = .error e by simp [GetByID, hl]] at h
      injection h with h
      subst h
      rcases listStored_error_kind (listAll_error_inv hl) with h' | h' <;>
        exact Err.noConfusion h'
    · refine ⟨l, rfl, ?_⟩
      intro g hg
      rcases hfind : l.find? (fun x => x.ID == i) with _ | g'
      · have := List.find?_eq_none.mp hfind g hg
        simpa using this
      · rw [show GetByID db i = .ok g' by simp [GetByID, hl, hfind]] at h
        exact Except.noConfusion h
  · rintro ⟨l, hl, hnone⟩
    have hfind : l.find? (fun x => x.ID == i) = none := find?_id_eq_none hnone
    simp [GetByID, hl, hfind]

theorem getByID_spec_witness :
    GetByID emptyStore "b1031651-411c-40bb-b269-d247794dfd59" =
      .ok { ID := "b1031651-411c-40bb-b269-d247794dfd59"
            Title := "BBC News - UK"
            Description := "BBC News - UK"
            URL := "http://feeds.bbci.co.uk/news/uk/rss.xml"
            ImageURL := "https://news.bbcimg.co.uk/nol/shared/img/bbc_news_120x60.gif"
            Category := "" } ∧
    GetByID emptyStore "nonexistent" = .error .errorFeedNotFound ∧
    GetByID { bucketExists := false, value := none } "x" =
      .error .errorUnconfiguredBucket :=
  ⟨(getByID_spec emptyStore "b1031651-411c-40bb-b269-d247794dfd59").1
      defaultFeedsList _ rfl rfl,
   (getByID_spec emptyStore "nonexistent").2.2.mpr
      ⟨defaultFeedsList, rfl, by decide⟩,
   (getByID_spec { bucketExists := false, value := none } "x").2.1
      .errorUnconfiguredBucket rfl⟩

/-- C6: `Add` overwrites any caller-supplied identifier before the
duplicate check — candidates differing only in `ID` behave identically —
and when the candidate's URL is new, the id returned is the freshly
assigned one, which is also the `ID` of the record appended to the stored
list; the caller-supplied id appears neither in the store nor in the
return value. -/
theorem add_id_authority (db : DB) (f : Feed) (fresh callerID : String)
    (l : List Feed) (hls : listStored db = .ok l)
    (hnew : ∀ g ∈ defaultFeedsList ++ l, g.URL ≠ f.URL) :
    Add db { f with ID := callerID } fresh = Add db f fresh ∧
    (Add db f fresh).1 = .ok fresh ∧
    listStored (Add db f fresh).2 = .ok (l ++ [{ f with ID := fresh }]) := by
  have h1 : l.find? (fun x => x.URL == f.URL) = none :=
    find?_url_eq_none (fun g hg => hnew g (List.mem_append.mpr (.inr hg)))
  have h2 : defaultFeedsList.find? (fun x => x.URL == f.URL) = none :=
    find?_url_eq_none (fun g hg => hnew g (List.mem_append.mpr (.inl hg)))
  have hb := listStored_bucket_true hls
  have hadd := add_new_url fresh hls h1 h2
  refine ⟨rfl, ?_, ?_⟩
  · simp [hadd]
  · rw [hadd]
    exact listStored_marshal hb _

theorem add_id_authority_witness :
    Add emptyStore { exampleFeed with ID := "caller-override" } "fresh-1" =
      Add emptyStore exampleFeed "fresh-1" ∧
    (Add emptyStore exampleFeed "fresh-1").1 = .ok "fresh-1" ∧
    listStored (Add emptyStore exampleFeed "fresh-1").2 =
      .ok [{ exampleFeed with ID := "fresh-1" }] :=
  add_id_authority emptyStore exampleFeed "fresh-1" "caller-override" []
    rfl (by decide)

/-- C8 counterexample: a successful `Add` of a candidate whose URL collides
with a default catalog entry returns the existing entry's id, and `GetByID`
with that id does not yield the candidate's display fields — so the
round-trip claim fails for this candidate. -/
theorem add_roundtrip_duplicate_url_cex :
    (Add emptyStore bbcDupFeed "fresh-3").1 =
      .ok "b1031651-411c-40bb-b269-d247794dfd59" ∧
    GetByID (Add emptyStore bbcDupFeed "fresh-3").2
        "b1031651-411c-40bb-b269-d247794dfd59" ≠
      .ok { bbcDupFeed with ID := "b1031651-411c-40bb-b269-d247794dfd59" } := by
  decide

/-- C8 (amended): if the candidate's URL is not already present in the
combined catalog (otherwise `Add` returns the existing record's id and
`GetByID` retrieves that record instead) and the assigned fresh id differs
from every existing id, then `Add` returns the fresh id and `GetByID` with
it retrieves a record with exactly the candidate's `Title`, `Description`,
`URL`, `ImageURL` and `Category` and the assigned id. -/
theorem add_roundtrip (db : DB) (f : Feed) (fresh : String) (l : List Feed)
    (hls : listStored db = .ok l)
    (hnew : ∀ g ∈ defaultFeedsList ++ l, g.URL ≠ f.URL)
    (hid : ∀ g ∈ defaultFeedsList ++ l, g.ID ≠ fresh) :
    (Add db f fresh).1 = .ok fresh ∧
    GetByID (Add db f fresh).2 fresh = .ok { f with ID := fresh } := by
  have h1 : l.find? (fun x => x.URL == f.URL) = none :=
    find?_url_eq_none (fun g hg => hnew g (List.mem_append.mpr (.inr hg)))
  have h2 : defaultFeedsList.find? (fun x => x.URL == f.URL) = none :=
    find?_url_eq_none (fun g hg => hnew g (List.mem_append.mpr (.inl hg)))
  have hb := listStored_bucket_true hls
  have hadd := add_new_url fresh hls h1 h2
  have hls1 : listStored (Add db f fresh).2 = .ok (l ++ [{ f with ID := fresh }]) := by
    rw [hadd]
    exact listStored_marshal hb _
  have hall1 : ListAll (Add db f fresh).2 =
      .ok (defaultFeedsList ++ (l ++ [{ f with ID := fresh }])) := listAll_ok hls1
  have hfnone : (defaultFeedsList ++ l).find? (fun x => x.ID == fresh) = none :=
    find?_id_eq_none hid
  have hfind : (defaultFeedsList ++ (l ++ [{ f with ID := fresh }])).find?
      (fun x => x.ID == fresh) = some { f with ID := fresh } := by
    rw [← List.append_assoc, List.find?_append, hfnone]
    simp
  refine ⟨by simp [hadd], ?_⟩
  simp [GetByID, hall1, hfind]

theorem add_roundtrip_witness :
    (Add emptyStore exampleFeed "fresh-1").1 = .ok "fresh-1" ∧
    GetByID (Add emptyStore exampleFeed "fresh-1").2 "fresh-1" =
      .ok { exampleFeed with ID := "fresh-1" } :=
  add_roundtrip emptyStore exampleFeed "fresh-1" [] rfl (by decide) (by decide)

/-- C9: whenever `Add` returns an error the store state is left unchanged;
and in every case the resulting state is either the original state or the
original state with the persisted value replaced, as a whole, by the
serialization of the full stored list with the candidate appended — never
a partial write. -/
theorem add_error_atomicity (db : DB) (f : Feed) (fresh : String) :
    (∀ e, (Add db f fresh).1 = .error e → (Add db f fresh).2 = db) ∧
    ((Add db f fresh).2 = db ∨
      ∃ l, listStored db = .ok l ∧ (Add db f fresh).1 = .ok fresh ∧
        (Add db f fresh).2 =
          { db with value := some (jsonMarshal (l ++ [{ f with ID := fresh }])) }) := by
  rcases hls : listStored db with e | l
  · simp [add_listStored_error f fresh hls]
  · rcases hf : l.find? (fun x => x.URL == f.URL) with _ | g
    · rcases hd : defaultFeedsList.find? (fun x => x.URL == f.URL) with _ | g
      · have hadd := add_new_url fresh hls hf hd
        refine ⟨?_, .inr ⟨l, rfl, by simp [hadd], by simp [hadd]⟩⟩
        intro e he
        rw [hadd] at he
        simp at he
      · simp [add_dup_default fresh hls hf hd]
    · simp [add_dup_stored fresh hls hf]

theorem add_error_atomicity_witness :
    (Add { bucketExists := false, value := none } exampleFeed "fresh-7").2 =
      { bucketExists := false, value := none } :=
  (add_error_atomicity { bucketExists := false, value := none } exampleFeed
    "fresh-7").1 .errorUnconfiguredBucket rfl
